import Mathlib

/-!
Verification of the celery task-distribution core against its
natural-language specification.

The Python sources are shallowly embedded:

* pure functions become Lean functions;
* Python dicts that matter only through lookup/update become association
  lists with dict-style update semantics;
* code that performs broker or pool side effects is embedded as a function
  returning an event trace together with its result;
* code that may raise returns an `Except`/`Option`, or a trace paired with
  an optional propagated exception;
* environment-dependent primitives (`datetime.now`, `pickle.dumps`,
  exception-class construction) are oracle parameters, so theorems hold
  for every environment.

Machine integers do not occur in the modelled code paths (timestamps are
modelled as `Int` seconds).
-/

set_option autoImplicit false

/-! ## Python value scaffolding shared by several components -/

/-- A Python value as far as the modelled code inspects it: the worker and
publisher code only ever asks for container kind, truthiness, and
equality. -/
inductive PyVal where
  | vstr (s : String)
  | vint (n : Int)
  deriving DecidableEq

/-- A Python object in an argument position of `delay_task`: the code only
inspects `isinstance(x, (list, tuple))`, `isinstance(x, dict)` and
truthiness (empty containers and falsy scalars are falsy). -/
inductive PyObj where
  | pylist (len : Nat)
  | pytuple (len : Nat)
  | pydict (len : Nat)
  | other (truthy : Bool)
  deriving DecidableEq

/-- Python truthiness of a `PyObj`: containers are truthy iff non-empty. -/
def PyObj.truthy : PyObj → Bool
  | .pylist n => n != 0
  | .pytuple n => n != 0
  | .pydict n => n != 0
  | .other t => t

/-- `isinstance(x, (list, tuple))`. -/
def PyObj.isSeq : PyObj → Bool
  | .pylist _ => true
  | .pytuple _ => true
  | _ => false

/-- `isinstance(x, dict)`. -/
def PyObj.isDict : PyObj → Bool
  | .pydict _ => true
  | _ => false

/-- Python `x or d` for an optional argument `x` with default `d`:
`None` and falsy values are replaced by the default. -/
def pyOr (x : Option PyObj) (d : PyObj) : PyObj :=
  match x with
  | none => d
  | some v => if v.truthy then v else d

/-! ## Result backend: `BaseBackend.prepare_result` (src/celery/backends/base.py) -/

/-- A task result as stored by the backend; `none` models Python `None`. -/
inductive PyRes where
  | none
  | pybool (b : Bool)
  | pyint (n : Int)
  | pystr (s : String)
  deriving DecidableEq

/-- `BaseBackend.prepare_result`: `if result is None: return True` else the
result unchanged (src/celery/backends/base.py lines 102-106). -/
def prepare_result : PyRes → PyRes
  | .none => .pybool true
  | r => r

/-! ## Result backend: exception preparation (src/celery/backends/base.py
lines 10-26 and 80-91) -/

/-- A Python exception class as the serialization code observes it: its
defining module and name. -/
structure PyClass where
  module : String
  name : String
  deriving DecidableEq

/-- The `args` tuple of an exception. -/
abbrev ExcArgs := List String

/-- A Python exception instance: its class, the method resolution order of
that class (head is the class itself, walked from most to least
specific), and its `args`. -/
structure PyExc where
  cls : PyClass
  mro : List PyClass
  args : ExcArgs
  deriving DecidableEq

/-- The outcome of one `pickle.dumps` call: success, a raised
`pickle.PickleError`, or a raised exception of any other class (for
example the `TypeError` cPickle raises for a file object in the args). -/
inductive DumpsOutcome where
  | ok
  | pickleError
  | otherError (name : String)
  deriving DecidableEq

/-- One loop body of `find_nearest_pickleable_exception`:
`superexc = supercls(exc.args); pickle.dumps(superexc)` under a bare
`except:` — any failure of construction or pickling, whatever its class,
moves on to the next superclass.  `construct` and `dumps` are environment
oracles. -/
def trial (construct : PyClass → ExcArgs → Option PyExc) (dumps : PyExc → DumpsOutcome)
    (args : ExcArgs) (c : PyClass) : Option PyExc :=
  match construct c args with
  | some e => if dumps e = DumpsOutcome.ok then some e else none
  | none => none

/-- The `for supercls in exc.__class__.mro()` walk: first superclass whose
trial succeeds, or nothing. -/
def walkMro (construct : PyClass → ExcArgs → Option PyExc) (dumps : PyExc → DumpsOutcome)
    (args : ExcArgs) : List PyClass → Option PyExc
  | [] => none
  | c :: rest =>
      match trial construct dumps args c with
      | some e => some e
      | none => walkMro construct dumps args rest

/-- `find_nearest_pickleable_exception`: the first pickleable
reconstruction along the mro, falling back to the original exception
instance when every superclass fails. -/
def find_nearest_pickleable_exception (construct : PyClass → ExcArgs → Option PyExc)
    (dumps : PyExc → DumpsOutcome) (exc : PyExc) : PyExc :=
  (walkMro construct dumps exc.args exc.mro).getD exc

/-- What `BaseBackend.prepare_exception` does: return an exception
instance, return an `UnpickleableExceptionWrapper` carrying the module,
class name and constructor args of the wrapped exception, or let a
pickling exception that is not a `pickle.PickleError` propagate to the
caller. -/
inductive Prepared where
  | exc (e : PyExc)
  | wrapper (exc_module exc_cls_name : String) (exc_args : ExcArgs)
  | raised (exc_name : String)
  deriving DecidableEq

/-- `BaseBackend.prepare_exception`: take the nearest pickleable
reconstruction and try `pickle.dumps` on it under
`except pickle.PickleError`: on success return it, on a `PickleError`
wrap it in an `UnpickleableExceptionWrapper` built from its class module,
class name and args, and on any other exception class propagate
(`Prepared.raised`). -/
def prepare_exception (construct : PyClass → ExcArgs → Option PyExc)
    (dumps : PyExc → DumpsOutcome) (e : PyExc) : Prepared :=
  let nearest := find_nearest_pickleable_exception construct dumps e
  match dumps nearest with
  | DumpsOutcome.ok => Prepared.exc nearest
  | DumpsOutcome.pickleError =>
      Prepared.wrapper nearest.cls.module nearest.cls.name nearest.args
  | DumpsOutcome.otherError n => Prepared.raised n

/-- Concrete class for the C4 witness: an application exception type. -/
def wClsCustom : PyClass := PyClass.mk "myapp.exceptions" "CustomError"

/-- Concrete class for the C4 witness: the builtin `Exception` ancestor. -/
def wClsBase : PyClass := PyClass.mk "exceptions" "Exception"

/-- Concrete class for the C4 witness: the root `object` ancestor. -/
def wClsObj : PyClass := PyClass.mk "builtins" "object"

/-- Concrete construction oracle for the C4 witness: every class
constructs an instance of itself from the given args. -/
def wConstruct : PyClass → ExcArgs → Option PyExc :=
  fun c args => some (PyExc.mk c [c] args)

/-- Concrete pickling oracle for the C4 witness: only instances of the
builtin `Exception` class pickle; everything else raises a
`pickle.PickleError`. -/
def wDumps : PyExc → DumpsOutcome :=
  fun e => if e.cls.name == "Exception" then DumpsOutcome.ok else DumpsOutcome.pickleError

/-- Concrete pickling oracle where every pickling attempt raises a
`TypeError` — not a `pickle.PickleError` — as cPickle does for
unpicklable builtin objects such as a file in the exception's args. -/
def wDumpsT : PyExc → DumpsOutcome := fun _ => DumpsOutcome.otherError "TypeError"

/-- Concrete exception instance for the C4 witness. -/
def wExc : PyExc := PyExc.mk wClsCustom [wClsCustom, wClsBase, wClsObj] ["boom"]

/-! ## Worker task kwargs: `TaskWrapper` (src/celery/worker.py) -/

/-- A Python dict as an insertion-ordered association list. -/
abbrev PDict := List (String × PyVal)

/-- Dict item assignment: replace the value if the key is present, else
append the new pair. -/
def dset (d : PDict) (k : String) (v : PyVal) : PDict :=
  if d.any (fun kv => kv.1 == k) then
    d.map (fun kv => if kv.1 == k then (k, v) else kv)
  else
    d ++ [(k, v)]

/-- Python `d.update(other)`: set every pair of `other` into `d`, in order. -/
def dupdate (d other : PDict) : PDict :=
  other.foldl (fun acc kv => dset acc kv.1 kv.2) d

/-- Dict lookup returning the stored value for `k`, if any. -/
def dget (d : PDict) (k : String) : Option PyVal :=
  (d.find? (fun kv => kv.1 == k)).map (fun kv => kv.2)

/-- `TaskWrapper.extend_kwargs_with_logging(self, loglevel, logfile)`:
builds `{"logfile": logfile, "loglevel": loglevel}` and then updates it
with the task's own kwargs (src/celery/worker.py lines 46-50).  The
task's own kwargs therefore win on key collisions. -/
def extend_kwargs_with_logging (self_kwargs : PDict) (loglevel logfile : PyVal) : PDict :=
  dupdate [("logfile", logfile), ("loglevel", loglevel)] self_kwargs

/-- The kwargs that `TaskWrapper.execute_using_pool(self, pool, loglevel,
logfile)` submits to the process pool.  The source calls
`self.extend_kwargs_with_logging(logfile, loglevel)` — the two positional
arguments in the opposite order of the callee's `(loglevel, logfile)`
signature (src/celery/worker.py line 57), which this embedding reproduces
verbatim. -/
def execute_using_pool_kwargs (self_kwargs : PDict) (loglevel logfile : PyVal) : PDict :=
  extend_kwargs_with_logging self_kwargs logfile loglevel

/-! ## Publisher exchange declaration (src/celery/app/amqp.py lines 19-29) -/

/-- One call of `TaskPublisher.declare` for a publisher whose exchange is
`exchange`, given the process-wide `_exchanges_declared` memo: returns
whether a broker-level declare was issued, and the updated memo. -/
def declare (declared : List String) (exchange : String) : Bool × List String :=
  if exchange ∈ declared then (false, declared)
  else (true, declared ++ [exchange])

/-- Run a sequence of `declare` invocations (one per publisher `declare()`
call, identified by the target exchange name), returning the list of
exchanges for which a broker-level declare call was actually issued, in
order. -/
def runDeclares (declared : List String) : List String → List String
  | [] => []
  | e :: es =>
      let step := declare declared e
      (if step.1 then [e] else []) ++ runDeclares step.2 es

/-- The `_exchanges_declared` memo after a sequence of `declare`
invocations. -/
def finalDeclared (declared : List String) : List String → List String
  | [] => declared
  | e :: es => finalDeclared (declare declared e).2 es

/-! ## Publisher `delay_task` (src/celery/app/amqp.py lines 31-74) -/

/-- The `expires` argument of `delay_task`: an integer count of seconds
from now, an absolute timestamp (`datetime`), or absent. -/
inductive ExpiresArg where
  | int (secs : Int)
  | dt (t : Int)
  deriving DecidableEq

/-- The arguments of one `delay_task` call.  `retries` models the
`kwargs.get("retries", 0)` lookup in the surrounding `**kwargs`. -/
structure DelayInput where
  task_name : String
  task_args : Option PyObj
  task_kwargs : Option PyObj
  countdown : Option Int
  eta : Option Int
  task_id : Option String
  taskset_id : Option String
  expires : Option ExpiresArg
  retries : Option Int
  deriving DecidableEq

/-- The envelope `message_data` dict that `delay_task` sends.  `eta` and
`expires` are absolute timestamps or absent (`isoformat` is the identity
in this model). -/
structure MessageData where
  task : String
  id : String
  args : PyObj
  kwargs : PyObj
  retries : Int
  eta : Option Int
  expires : Option Int
  taskset : Option String
  deriving DecidableEq

/-- `task_id or gen_unique_id()`: a falsy (empty) supplied id is also
replaced by a generated one. -/
def orGenId (tid : Option String) (genId : String) : String :=
  match tid with
  | some s => if s = "" then genId else s
  | none => genId

/-- Truthiness of the `countdown` argument: `if countdown:` is false for
`None` and for `0`. -/
def countdownTruthy : Option Int → Bool
  | some c => c != 0
  | none => false

/-- `TaskPublisher.delay_task`, with `datetime.now()` modelled as reading
`clock k` on its k-th call within this invocation and `gen_unique_id()`
as the parameter `genId`.  Returns the outcome (the envelope sent, or the
`ValueError` message raised) paired with the trace of envelopes actually
passed to `self.send` — empty when validation raised first. -/
def delay_task (clock : Nat → Int) (genId : String) (i : DelayInput) :
    Except String MessageData × List MessageData :=
  let task_id := orGenId i.task_id genId
  let task_args := pyOr i.task_args (PyObj.pylist 0)
  let task_kwargs := pyOr i.task_kwargs (PyObj.pydict 0)
  let now0 : Option Int :=
    if countdownTruthy i.countdown then some (clock 0) else none
  let eta : Option Int :=
    match i.countdown with
    | some c => if c != 0 then some (clock 0 + c) else i.eta
    | none => i.eta
  if task_args.isSeq = false then
    (Except.error "task args must be a list or tuple", [])
  else if task_kwargs.isDict = false then
    (Except.error "task kwargs must be a dictionary", [])
  else
    let expires : Option Int :=
      match i.expires with
      | some (ExpiresArg.int e) =>
          some ((match now0 with | some n => n | none => clock 0) + e)
      | some (ExpiresArg.dt t) => some t
      | none => none
    let msg : MessageData := MessageData.mk i.task_name task_id
      (pyOr (some task_args) (PyObj.pylist 0))
      (pyOr (some task_kwargs) (PyObj.pydict 0))
      (i.retries.getD 0) eta expires
      (match i.taskset_id with
       | some s => if s = "" then none else some s
       | none => none)
    (Except.ok msg, [msg])

/-- Resolution of the `expires` argument against one `now` snapshot. -/
def resolveExpires (now : Int) : Option ExpiresArg → Option Int
  | some (ExpiresArg.int e) => some (now + e)
  | some (ExpiresArg.dt t) => some t
  | none => none

/-- Whether a `delay_task` outcome raised. -/
def isError : Except String MessageData → Bool
  | .error _ => true
  | .ok _ => false

/-- C5 counterexample input: `countdown=0` supplied, no explicit `eta`,
an integer `expires`. -/
def cex5Input : DelayInput :=
  DelayInput.mk "tasks.add" none none (some 0) none (some "tid") none
    (some (ExpiresArg.int 60)) none

/-- The envelope `delay_task` sends for `cex5Input` under the constant
clock 1000. -/
def cex5Msg : MessageData :=
  MessageData.mk "tasks.add" "tid" (PyObj.pylist 0) (PyObj.pydict 0) 0 none
    (some 1060) none

/-- C6 counterexample input: `args` supplied as an empty dict — a mapping,
not a sequence. -/
def cex6Input : DelayInput :=
  DelayInput.mk "tasks.add" (some (PyObj.pydict 0)) none none none
    (some "tid") none none none

/-- The envelope `delay_task` sends for `cex6Input`. -/
def cex6Msg : MessageData :=
  MessageData.mk "tasks.add" "tid" (PyObj.pylist 0) (PyObj.pydict 0) 0 none
    none none

/-- A strictly increasing clock for the C5 witness, so that reusing the
first snapshot is distinguishable from taking a second one. -/
def wClock5 : Nat → Int := fun n => 100 + (n : Int)

/-- C5 witness input: `countdown=10`, no explicit `eta`, integer
`expires=60`. -/
def wit5Input : DelayInput :=
  DelayInput.mk "tasks.add" (some (PyObj.pylist 2)) (some (PyObj.pydict 1))
    (some 10) none (some "tid5") (some "ts5") (some (ExpiresArg.int 60)) (some 2)

/-- The envelope `delay_task` sends for `wit5Input` under `wClock5`:
`eta` and `expires` both resolved against the single snapshot `100`. -/
def wit5Msg : MessageData :=
  MessageData.mk "tasks.add" "tid5" (PyObj.pylist 2) (PyObj.pydict 1) 2
    (some 110) (some 160) (some "ts5")

/-- C6 witness input: `kwargs` supplied as a non-empty tuple — truthy and
not a mapping. -/
def wit6Input : DelayInput :=
  DelayInput.mk "tasks.add" none (some (PyObj.pytuple 3)) none none none
    none none none

/-! ## Consumer set receive callback (src/celery/app/amqp.py lines 92-103) -/

instance decEqExcept (α β : Type) [DecidableEq α] [DecidableEq β] :
    DecidableEq (Except α β) := fun x y =>
  match x, y with
  | .error a, .error b => decidable_of_iff (a = b) (by simp)
  | .error _, .ok _ => .isFalse (fun h => Except.noConfusion h)
  | .ok _, .error _ => .isFalse (fun h => Except.noConfusion h)
  | .ok c, .ok d => decidable_of_iff (c = d) (by simp)

/-- A raw broker message as `ConsumerSet._receive_callback` inspects it:
whether it is already acknowledged, and the outcome of `message.decode()`
(the decoded body, or the exception it raises). -/
structure RawMessage where
  acknowledged : Bool
  decode : Except String Nat
  deriving DecidableEq

/-- Observable events of one `_receive_callback` invocation. -/
inductive ConsumeEvent where
  | ack
  | decodeErrorCb (m : RawMessage) (exc : String)
  | received (decoded : Nat) (m : RawMessage)
  deriving DecidableEq

/-- `ConsumerSet._receive_callback`: ack first when `auto_ack` is set and
the message is not yet acknowledged; then decode; on decode failure call
`on_decode_error(message, exc)` when registered, else re-raise; on
success call `self.receive(decoded, message)`.  Returns the event trace
and the exception propagated to the caller, if any. -/
def receive_callback (auto_ack has_on_decode_error : Bool) (m : RawMessage) :
    List ConsumeEvent × Option String :=
  let ackEvts : List ConsumeEvent :=
    if auto_ack && !m.acknowledged then [ConsumeEvent.ack] else []
  match m.decode with
  | .error exc =>
      if has_on_decode_error then (ackEvts ++ [ConsumeEvent.decodeErrorCb m exc], none)
      else (ackEvts, some exc)
  | .ok d => (ackEvts ++ [ConsumeEvent.received d m], none)

/-! ## Process pool result collection
(src/celery/concurrency/processes/__init__.py lines 95-119) -/

/-- Worker-side exception classification as `on_ready` performs it:
`SystemExit` and `KeyboardInterrupt` are fatal interrupts, everything
else is an ordinary task error identified by its class name. -/
inductive ExcKind where
  | systemExit
  | keyboardInterrupt
  | other (name : String)
  deriving DecidableEq

/-- `isinstance(ret_value.exception, (SystemExit, KeyboardInterrupt))`. -/
def ExcKind.fatal : ExcKind → Bool
  | .systemExit => true
  | .keyboardInterrupt => true
  | .other _ => false

/-- `celery.datastructures.ExceptionInfo`: the serializable wrapper built
from `(exc.__class__, exc, traceback)`; the modelled code only reads the
wrapped exception back out. -/
structure ExcInfo where
  exception : ExcKind
  deriving DecidableEq

/-- The collected return value of a pool work item as `on_ready` receives
it: either the target's return value or an `ExceptionInfo`. -/
inductive RetValue where
  | value (v : Nat)
  | excinfo (ei : ExcInfo)
  deriving DecidableEq

/-- A registered callback; the only behaviour the result-collection code
can observe is whether calling it raises. -/
structure Callback where
  raises : Bool
  deriving DecidableEq

/-- Observable events of result collection: a success callback invoked
with the return value, a failure callback invoked with an exception-info,
or `safe_apply_callback` logging an exception a callback raised.  The
`idx` identifies the callback by its position in its list. -/
inductive CbEvent where
  | invokedSuccess (idx : Nat) (v : Nat)
  | invokedFailure (idx : Nat) (ei : ExcInfo)
  | loggedCallbackError (idx : Nat)
  deriving DecidableEq

/-- `TaskPool.safe_apply_callback`: invoke the callback (event `evt`); if
it raises, log the exception; nothing propagates. -/
def safe_apply_callback (idx : Nat) (cb : Callback) (evt : CbEvent) : List CbEvent :=
  evt :: (if cb.raises then [CbEvent.loggedCallbackError idx] else [])

/-- Apply `safe_apply_callback` to each callback of a list in order,
numbering the callbacks from `j`. -/
def safeRunFrom (mkEvt : Nat → CbEvent) (j : Nat) : List Callback → List CbEvent
  | [] => []
  | cb :: rest => safe_apply_callback j cb (mkEvt j) ++ safeRunFrom mkEvt (j + 1) rest

/-- `TaskPool.on_ready`: if the collected value is an `ExceptionInfo`
whose exception is `SystemExit` or `KeyboardInterrupt`, re-raise it in
the result-collecting process (`Except.error`); if it is any other
`ExceptionInfo`, safely apply every errback to it; otherwise safely apply
every success callback to the return value. -/
def on_ready (callbacks errbacks : List Callback) (ret : RetValue) :
    Except ExcKind (List CbEvent) :=
  match ret with
  | .excinfo ei =>
      if ei.exception.fatal then Except.error ei.exception
      else Except.ok (safeRunFrom (fun i => CbEvent.invokedFailure i ei) 0 errbacks)
  | .value v => Except.ok (safeRunFrom (fun i => CbEvent.invokedSuccess i v) 0 callbacks)

/-- `TaskPool.on_worker_error` applied to the suffix of the errback list
starting at index `j`: invoke each errback on the exception-info directly
(no `safe_apply_callback`); the first errback that raises aborts the list
comprehension and its exception propagates (`some idx`). -/
def onWorkerErrorFrom (ei : ExcInfo) (j : Nat) : List Callback → List CbEvent × Option Nat
  | [] => ([], none)
  | cb :: rest =>
      if cb.raises then ([CbEvent.invokedFailure j ei], some j)
      else
        let r := onWorkerErrorFrom ei (j + 1) rest
        (CbEvent.invokedFailure j ei :: r.1, r.2)

/-- `TaskPool.on_worker_error`: wraps the worker-side exception into
`ExceptionInfo((exc.__class__, exc, None))` and delivers it to the
errbacks in order.  Returns the event trace and, if an errback raised,
the index of the errback whose exception propagated. -/
def on_worker_error (errbacks : List Callback) (exc : ExcKind) : List CbEvent × Option Nat :=
  onWorkerErrorFrom (ExcInfo.mk exc) 0 errbacks

/-- The events of an `on_ready` outcome (empty when it re-raised). -/
def readyEvents : Except ExcKind (List CbEvent) → List CbEvent
  | .ok evts => evts
  | .error _ => []

/-- The exception an `on_ready` outcome re-raised, if any. -/
def readyRaises : Except ExcKind (List CbEvent) → Option ExcKind
  | .ok _ => none
  | .error e => some e

/-- The index list `[j, j+1, ..., j+n-1]`. -/
def rangeFrom (j : Nat) : Nat → List Nat
  | 0 => []
  | n + 1 => j :: rangeFrom (j + 1) n

def isSuccessEvent : CbEvent → Bool
  | .invokedSuccess _ _ => true
  | _ => false

def isFailureEvent : CbEvent → Bool
  | .invokedFailure _ _ => true
  | _ => false

def loggedProj : CbEvent → Option Nat
  | .loggedCallbackError i => some i
  | _ => none

/-- The success-callback invocations of a trace, in order. -/
def successEvents (evts : List CbEvent) : List CbEvent :=
  evts.filter isSuccessEvent

/-- The failure-callback invocations of a trace, in order. -/
def failureEvents (evts : List CbEvent) : List CbEvent :=
  evts.filter isFailureEvent

/-- The indices whose callback exceptions were caught and logged. -/
def loggedIdxs (evts : List CbEvent) : List Nat :=
  evts.filterMap loggedProj

/-- The indices (numbered from `j`) of the callbacks that raise. -/
def raiserIdxsFrom (j : Nat) : List Callback → List Nat
  | [] => []
  | cb :: rest => (if cb.raises then [j] else []) ++ raiserIdxsFrom (j + 1) rest

/-- Index of the first raising callback of a list, if any. -/
def firstRaiserIdx : List Callback → Option Nat
  | [] => none
  | cb :: rest => if cb.raises then some 0 else (firstRaiserIdx rest).map (fun i => i + 1)

/-- How many errbacks `on_worker_error` invokes: all of them up to and
including the first raiser, or the whole list when none raises. -/
def invokedCount : List Callback → Nat
  | [] => 0
  | cb :: rest => (if cb.raises then 0 else invokedCount rest) + 1

/-! ## Worker daemon fetch-execute-ack step (src/celery/worker.py) -/

/-- One fetched broker message with everything `execute_next_task`
observes about it: the task name and id decoded from its body, whether
the task name is in the task registry, the outcome of submitting it to
the pool (`pool.apply_async` returns an async-result handle, modelled as
a `Nat`, or raises), and, for reference, the eventual outcome of the task
body, which this step never consults. -/
structure FetchedTask where
  task_name : String
  task_id : String
  known : Bool
  submit : Except String Nat
  completion : Option Nat
  deriving DecidableEq

/-- Broker- and pool-visible events of one daemon step. -/
inductive DaemonEvent where
  | reject
  | submitted
  | ack
  deriving DecidableEq

/-- The value `execute_next_task` produces for the `run` loop. -/
inductive ExecOutcome where
  | raisedEmptyQueue
  | raisedUnknownTask (name : String)
  | loggedError
  | ok (result : Nat) (name id : String)
  deriving DecidableEq

/-- `TaskDaemon.execute_next_task` (src/celery/worker.py lines 94-106),
with `fetch_next_task` inlined: `none` means the consumer returned no
message (`EmptyQueue` raised); an unknown task name makes `from_message`
reject the message and raise `UnknownTask`; otherwise the task is
submitted to the pool — if submission raises, the exception is caught and
logged and the method returns without acking or rejecting; only after
submission returns successfully is `message.ack()` called. -/
def execute_next_task (fetched : Option FetchedTask) : ExecOutcome × List DaemonEvent :=
  match fetched with
  | none => (ExecOutcome.raisedEmptyQueue, [])
  | some t =>
      if !t.known then (ExecOutcome.raisedUnknownTask t.task_name, [DaemonEvent.reject])
      else
        match t.submit with
        | .error _ => (ExecOutcome.loggedError, [])
        | .ok r => (ExecOutcome.ok r t.task_name t.task_id,
                    [DaemonEvent.submitted, DaemonEvent.ack])

/-- What one iteration of `TaskDaemon.run` does with the outcome. -/
inductive LoopStep where
  | continued
  | stored (result : Nat) (name id : String)
  deriving DecidableEq

/-- One iteration of the `while True` loop of `TaskDaemon.run`
(src/celery/worker.py lines 124-149): every exceptional outcome of
`execute_next_task` is caught (`EmptyQueue`, `UnknownTask`, a logged
submission error whose `None` return fails tuple unpacking, any other
`Exception`) and the loop continues; a successful outcome falls through
to `results.add` and then also continues. -/
def run_iteration (fetched : Option FetchedTask) : LoopStep × List DaemonEvent :=
  let step := execute_next_task fetched
  match step.1 with
  | ExecOutcome.ok r name id => (LoopStep.stored r name id, step.2)
  | _ => (LoopStep.continued, step.2)

/-- A fetched task whose pool submission raises. -/
def wtSubmitFails : FetchedTask :=
  FetchedTask.mk "tasks.add" "id-1" true (Except.error "PoolError") none

/-- A fetched task whose pool submission returns an async-result handle. -/
def wtSubmitOk : FetchedTask :=
  FetchedTask.mk "tasks.add" "id-2" true (Except.ok 7) none

/-! ## Supporting lemmas -/

/-- Broker-level declare calls issued by a sequence of `declare`
invocations, counted for one exchange: an exchange already in the memo is
never redeclared, and a fresh exchange is declared exactly once. -/
theorem runDeclares_count (t : List String) : ∀ (d : List String) (e : String),
    (runDeclares d t).count e = if e ∈ d then 0 else if e ∈ t then 1 else 0 := by
  induction t with
  | nil =>
      intro d e
      simp [runDeclares]
  | cons x es ih =>
      intro d e
      by_cases hxd : x ∈ d
      · have hstep : declare d x = (false, d) := by simp [declare, hxd]
        by_cases hed : e ∈ d
        · simp [runDeclares, hstep, ih d e, hed]
        · have hex : e ≠ x := fun h => hed (h ▸ hxd)
          simp [runDeclares, hstep, ih d e, hed, hex]
      · have hstep : declare d x = (true, d ++ [x]) := by simp [declare, hxd]
        by_cases hex : e = x
        · subst hex
          simp [runDeclares, hstep, ih (d ++ [e]) e, hxd]
        · by_cases hed : e ∈ d
          · simp [runDeclares, hstep, ih (d ++ [x]) e, hed, hex]
          · simp [runDeclares, hstep, ih (d ++ [x]) e, hed, hex, List.mem_append]

/-- An exchange present in the `_exchanges_declared` memo stays in it
through any further sequence of declare invocations. -/
theorem mem_finalDeclared (t : List String) : ∀ (d : List String) (e : String),
    e ∈ d → e ∈ finalDeclared d t := by
  induction t with
  | nil =>
      intro d e h
      simpa [finalDeclared] using h
  | cons x es ih =>
      intro d e h
      have hmem : e ∈ (declare d x).2 := by
        by_cases hxd : x ∈ d
        · simpa [declare, hxd] using h
        · simp [declare, hxd]
          exact Or.inl h
      simpa [finalDeclared] using ih (declare d x).2 e hmem

theorem rangeFrom_one (j : Nat) : rangeFrom j 1 = [j] := rfl

theorem successEvents_safeRunFrom (v : Nat) (cbs : List Callback) : ∀ j : Nat,
    successEvents (safeRunFrom (fun i => CbEvent.invokedSuccess i v) j cbs) =
      (rangeFrom j cbs.length).map (fun i => CbEvent.invokedSuccess i v) := by
  induction cbs with
  | nil =>
      intro j
      rfl
  | cons cb rest ih =>
      intro j
      by_cases h : cb.raises <;>
        simp [safeRunFrom, safe_apply_callback, successEvents, rangeFrom, h, isSuccessEvent,
          successEvents] at ih ⊢ <;>
        exact ih (j + 1)

theorem failureEvents_safeRunFrom (ei : ExcInfo) (cbs : List Callback) : ∀ j : Nat,
    failureEvents (safeRunFrom (fun i => CbEvent.invokedFailure i ei) j cbs) =
      (rangeFrom j cbs.length).map (fun i => CbEvent.invokedFailure i ei) := by
  induction cbs with
  | nil =>
      intro j
      rfl
  | cons cb rest ih =>
      intro j
      by_cases h : cb.raises <;>
        simp [safeRunFrom, safe_apply_callback, failureEvents, rangeFrom, h, isFailureEvent,
          failureEvents] at ih ⊢ <;>
        exact ih (j + 1)

theorem failureEvents_safeRunFrom_success (v : Nat) (cbs : List Callback) : ∀ j : Nat,
    failureEvents (safeRunFrom (fun i => CbEvent.invokedSuccess i v) j cbs) = [] := by
  induction cbs with
  | nil =>
      intro j
      rfl
  | cons cb rest ih =>
      intro j
      by_cases h : cb.raises <;>
        simp [safeRunFrom, safe_apply_callback, failureEvents, h, isFailureEvent,
          failureEvents] at ih ⊢ <;>
        exact ih (j + 1)

theorem successEvents_safeRunFrom_failure (ei : ExcInfo) (cbs : List Callback) : ∀ j : Nat,
    successEvents (safeRunFrom (fun i => CbEvent.invokedFailure i ei) j cbs) = [] := by
  induction cbs with
  | nil =>
      intro j
      rfl
  | cons cb rest ih =>
      intro j
      by_cases h : cb.raises <;>
        simp [safeRunFrom, safe_apply_callback, successEvents, h, isSuccessEvent,
          successEvents] at ih ⊢ <;>
        exact ih (j + 1)

theorem loggedProj_logged (i : Nat) :
    loggedProj (CbEvent.loggedCallbackError i) = some i := rfl

theorem loggedIdxs_safeRunFrom (mkEvt : Nat → CbEvent)
    (hmk : ∀ i, loggedProj (mkEvt i) = none) (cbs : List Callback) : ∀ j : Nat,
    loggedIdxs (safeRunFrom mkEvt j cbs) = raiserIdxsFrom j cbs := by
  induction cbs with
  | nil =>
      intro j
      rfl
  | cons cb rest ih =>
      intro j
      by_cases h : cb.raises <;>
        simp [safeRunFrom, safe_apply_callback, loggedIdxs, raiserIdxsFrom, h, hmk,
          loggedProj_logged, List.filterMap_cons] <;>
        exact ih (j + 1)

theorem onWorkerErrorFrom_spec (ei : ExcInfo) (cbs : List Callback) : ∀ j : Nat,
    onWorkerErrorFrom ei j cbs =
      ((rangeFrom j (invokedCount cbs)).map (fun i => CbEvent.invokedFailure i ei),
       (firstRaiserIdx cbs).map (fun i => i + j)) := by
  induction cbs with
  | nil =>
      intro j
      simp [onWorkerErrorFrom, invokedCount, firstRaiserIdx, rangeFrom]
  | cons cb rest ih =>
      intro j
      by_cases h : cb.raises
      · simp [onWorkerErrorFrom, invokedCount, firstRaiserIdx, h, rangeFrom, rangeFrom_one]
      · cases hfr : firstRaiserIdx rest with
        | none =>
            simp [onWorkerErrorFrom, invokedCount, firstRaiserIdx, h, hfr, rangeFrom,
              ih (j + 1)]
        | some k =>
            simp [onWorkerErrorFrom, invokedCount, firstRaiserIdx, h, hfr, rangeFrom,
              ih (j + 1)]
            omega

theorem invokedCount_eq_length (cbs : List Callback) (h : firstRaiserIdx cbs = none) :
    invokedCount cbs = cbs.length := by
  induction cbs with
  | nil => rfl
  | cons cb rest ih =>
      by_cases hr : cb.raises
      · simp [firstRaiserIdx, hr] at h
      · simp [firstRaiserIdx, hr] at h
        simp [invokedCount, hr, ih h]

/-- A trial that succeeds yields an instance the `dumps` oracle accepts. -/
theorem trial_some_dumps (construct : PyClass → ExcArgs → Option PyExc)
    (dumps : PyExc → DumpsOutcome) (args : ExcArgs) (c : PyClass) (e1 : PyExc)
    (h : trial construct dumps args c = some e1) : dumps e1 = DumpsOutcome.ok := by
  unfold trial at h
  cases hcon : construct c args with
  | none =>
      rw [hcon] at h
      exact absurd h (by simp)
  | some e0 =>
      rw [hcon] at h
      by_cases hd : dumps e0 = DumpsOutcome.ok
      · simp [hd] at h
        rw [← h]
        exact hd
      · simp [hd] at h

/-- The mro walk returns the first successful trial. -/
theorem walkMro_prefix_some (construct : PyClass → ExcArgs → Option PyExc)
    (dumps : PyExc → DumpsOutcome) (args : ExcArgs) (c : PyClass) (e1 : PyExc) :
    ∀ (pre post : List PyClass), (∀ cp ∈ pre, trial construct dumps args cp = none) →
      trial construct dumps args c = some e1 →
      walkMro construct dumps args (pre ++ c :: post) = some e1 := by
  intro pre
  induction pre with
  | nil =>
      intro post hpre hc
      simp [walkMro, hc]
  | cons p ps ih =>
      intro post hpre hc
      have hp : trial construct dumps args p = none := hpre p (by simp)
      simp only [List.cons_append, walkMro, hp]
      exact ih post (fun cp hcp => hpre cp (by simp [hcp])) hc

/-- The mro walk fails when every trial fails. -/
theorem walkMro_none (construct : PyClass → ExcArgs → Option PyExc)
    (dumps : PyExc → DumpsOutcome) (args : ExcArgs) : ∀ l : List PyClass,
    (∀ cp ∈ l, trial construct dumps args cp = none) →
    walkMro construct dumps args l = none := by
  intro l
  induction l with
  | nil =>
      intro h
      rfl
  | cons p ps ih =>
      intro h
      have hp : trial construct dumps args p = none := h p (by simp)
      simp only [walkMro, hp]
      exact ih (fun cp hcp => h cp (by simp [hcp]))

/-! ## Claim theorems -/

/-- C10: `prepare_result` maps a `None` task result to the boolean `True`
and returns every non-`None` result unchanged, so the prepared value is
never `None`. -/
theorem prepare_result_never_none (r : PyRes) (hr : r ≠ PyRes.none) :
    prepare_result PyRes.none = PyRes.pybool true ∧
    prepare_result r = r ∧
    prepare_result r ≠ PyRes.none ∧
    prepare_result PyRes.none ≠ PyRes.none := by
  refine ⟨rfl, ?_, ?_, by decide⟩
  · cases r with
    | none => exact absurd rfl hr
    | pybool b => rfl
    | pyint n => rfl
    | pystr s => rfl
  · cases r with
    | none => exact absurd rfl hr
    | pybool b => simp [prepare_result]
    | pyint n => simp [prepare_result]
    | pystr s => simp [prepare_result]

theorem prepare_result_never_none_witness :
    prepare_result (PyRes.pyint 5) = PyRes.pyint 5 ∧
    prepare_result PyRes.none = PyRes.pybool true :=
  ⟨(prepare_result_never_none (PyRes.pyint 5) (by decide)).2.1,
   (prepare_result_never_none (PyRes.pyint 5) (by decide)).1⟩

/-- C9 (code bug): evaluating the kwargs that `execute_using_pool` submits
for a task with empty kwargs, daemon loglevel `40` (`logging.ERROR`) and
logfile `"celeryd.log"`.  Because `execute_using_pool` passes
`(logfile, loglevel)` to a callee expecting `(loglevel, logfile)`, the
configured loglevel ends up under the `"logfile"` key and the configured
logfile under the `"loglevel"` key — the claim expects each value under
its own key. -/
theorem execute_using_pool_swaps_logging_kwargs :
    execute_using_pool_kwargs [] (PyVal.vint 40) (PyVal.vstr "celeryd.log") =
      [("logfile", PyVal.vint 40), ("loglevel", PyVal.vstr "celeryd.log")] ∧
    dget (execute_using_pool_kwargs [] (PyVal.vint 40) (PyVal.vstr "celeryd.log")) "logfile" ≠
      some (PyVal.vstr "celeryd.log") := by
  constructor
  · rfl
  · decide

/-- C7: starting from an empty process-wide memo, a sequence of publisher
`declare()` calls issues at most one broker-level declare per exchange
name (exactly one if the exchange occurs in the sequence); an exchange
already in the memo is never removed by further calls and is never
redeclared. -/
theorem declare_exchange_once_per_process (t : List String) (e : String)
    (d : List String) (hd : e ∈ d) :
    (runDeclares [] t).count e ≤ 1 ∧
    (runDeclares [] t).count e = (if e ∈ t then 1 else 0) ∧
    e ∈ finalDeclared d t ∧
    (runDeclares d t).count e = 0 := by
  have hcount := runDeclares_count t [] e
  simp at hcount
  refine ⟨?_, hcount, mem_finalDeclared t d e hd, ?_⟩
  · rw [hcount]
    split <;> omega
  · have h := runDeclares_count t d e
    simpa [hd] using h

theorem declare_exchange_once_per_process_witness :
    ("ex1" : String) ∈ ["ex1"] ∧
    ((runDeclares [] ["ex1", "ex2", "ex1"]).count "ex1" ≤ 1 ∧
     (runDeclares [] ["ex1", "ex2", "ex1"]).count "ex1" =
       (if ("ex1" : String) ∈ ["ex1", "ex2", "ex1"] then 1 else 0) ∧
     ("ex1" : String) ∈ finalDeclared ["ex1"] ["ex1", "ex2", "ex1"] ∧
     (runDeclares ["ex1"] ["ex1", "ex2", "ex1"]).count "ex1" = 0) :=
  ⟨by decide,
   declare_exchange_once_per_process ["ex1", "ex2", "ex1"] "ex1" ["ex1"] (by decide)⟩

/-- C8: on a message whose body fails to decode, a registered decode-error
callback receives `(message, exception)` and nothing propagates and the
receive handler is not invoked; with no callback registered the decode
exception propagates; on successful decode `(decoded_body, message)` is
forwarded to the receive handler. -/
theorem consumer_set_receive_callback_decode_paths
    (auto_ack handler : Bool) (m1 m2 : RawMessage) (exc : String) (d : Nat)
    (hex : m1.decode = Except.error exc) (hok : m2.decode = Except.ok d) :
    receive_callback auto_ack true m1 =
      ((if auto_ack && !m1.acknowledged then [ConsumeEvent.ack] else []) ++
         [ConsumeEvent.decodeErrorCb m1 exc], none) ∧
    receive_callback auto_ack false m1 =
      ((if auto_ack && !m1.acknowledged then [ConsumeEvent.ack] else []), some exc) ∧
    receive_callback auto_ack handler m2 =
      ((if auto_ack && !m2.acknowledged then [ConsumeEvent.ack] else []) ++
         [ConsumeEvent.received d m2], none) := by
  refine ⟨?_, ?_, ?_⟩ <;> simp [receive_callback, hex, hok]

theorem consumer_set_receive_callback_decode_paths_witness :
    receive_callback true true (RawMessage.mk false (Except.error "DecodeError")) =
      ([ConsumeEvent.ack,
        ConsumeEvent.decodeErrorCb (RawMessage.mk false (Except.error "DecodeError"))
          "DecodeError"], none) ∧
    receive_callback true false (RawMessage.mk false (Except.error "DecodeError")) =
      ([ConsumeEvent.ack], some "DecodeError") ∧
    receive_callback true true (RawMessage.mk true (Except.ok 7)) =
      ([ConsumeEvent.received 7 (RawMessage.mk true (Except.ok 7))], none) := by
  have h := consumer_set_receive_callback_decode_paths true true
    (RawMessage.mk false (Except.error "DecodeError"))
    (RawMessage.mk true (Except.ok 7)) "DecodeError" 7 rfl rfl
  simpa using h

/-- C1: for a fetched message whose task is registered, the broker message
is acked exactly when pool submission returns successfully, and then
immediately after the submission event; if submission raises, the message
is neither acked nor rejected and the daemon loop continues; the whole
step is independent of whether or when the task body ever completes, so
the ack never waits for task completion. -/
theorem taskDaemon_ack_after_submission (t : FetchedTask) (hk : t.known = true) :
    (∀ e, t.submit = Except.error e →
        execute_next_task (some t) = (ExecOutcome.loggedError, []) ∧
        (run_iteration (some t)).1 = LoopStep.continued) ∧
    (∀ r, t.submit = Except.ok r →
        (execute_next_task (some t)).2 = [DaemonEvent.submitted, DaemonEvent.ack] ∧
        (run_iteration (some t)).1 = LoopStep.stored r t.task_name t.task_id) ∧
    (∀ c, execute_next_task
        (some (FetchedTask.mk t.task_name t.task_id t.known t.submit c)) =
      execute_next_task (some t)) ∧
    (∀ f : Option FetchedTask, DaemonEvent.ack ∈ (execute_next_task f).2 →
        (execute_next_task f).2 = [DaemonEvent.submitted, DaemonEvent.ack]) := by
  refine ⟨?_, ?_, ?_, ?_⟩
  · intro e he
    simp [execute_next_task, run_iteration, hk, he]
  · intro r hr
    simp [execute_next_task, run_iteration, hk, hr]
  · intro c
    cases t
    simp [execute_next_task]
  · intro f hmem
    match f with
    | none => simp [execute_next_task] at hmem
    | some t2 =>
        by_cases hk2 : t2.known
        · cases hs : t2.submit with
          | error e => simp [execute_next_task, hk2, hs] at hmem
          | ok r => simp [execute_next_task, hk2, hs]
        · simp [execute_next_task, hk2] at hmem

theorem taskDaemon_ack_after_submission_witness :
    execute_next_task (some wtSubmitFails) = (ExecOutcome.loggedError, []) ∧
    (run_iteration (some wtSubmitFails)).1 = LoopStep.continued ∧
    (execute_next_task (some wtSubmitOk)).2 = [DaemonEvent.submitted, DaemonEvent.ack] :=
  ⟨((taskDaemon_ack_after_submission wtSubmitFails rfl).1 "PoolError" rfl).1,
   ((taskDaemon_ack_after_submission wtSubmitFails rfl).1 "PoolError" rfl).2,
   ((taskDaemon_ack_after_submission wtSubmitOk rfl).2.1 7 rfl).1⟩

/-- C2: for one collected work-item result, `on_ready` fires exactly one
of the two callback lists, each callback exactly once in order — the
success list on a plain return value, the failure list on a non-fatal
`ExceptionInfo` — except that a `SystemExit` or `KeyboardInterrupt`
worker exception is re-raised in the result-collecting process with no
failure callback invoked. -/
theorem pool_on_ready_exactly_one_list_fires
    (callbacks errbacks : List Callback) (v : Nat) (ei : ExcInfo)
    (hf : ei.exception.fatal = false) :
    (readyRaises (on_ready callbacks errbacks (RetValue.value v)) = none ∧
     successEvents (readyEvents (on_ready callbacks errbacks (RetValue.value v))) =
       (rangeFrom 0 callbacks.length).map (fun i => CbEvent.invokedSuccess i v) ∧
     failureEvents (readyEvents (on_ready callbacks errbacks (RetValue.value v))) = []) ∧
    (readyRaises (on_ready callbacks errbacks (RetValue.excinfo ei)) = none ∧
     failureEvents (readyEvents (on_ready callbacks errbacks (RetValue.excinfo ei))) =
       (rangeFrom 0 errbacks.length).map (fun i => CbEvent.invokedFailure i ei) ∧
     successEvents (readyEvents (on_ready callbacks errbacks (RetValue.excinfo ei))) = []) ∧
    on_ready callbacks errbacks (RetValue.excinfo (ExcInfo.mk ExcKind.systemExit)) =
      Except.error ExcKind.systemExit ∧
    on_ready callbacks errbacks (RetValue.excinfo (ExcInfo.mk ExcKind.keyboardInterrupt)) =
      Except.error ExcKind.keyboardInterrupt := by
  refine ⟨⟨?_, ?_, ?_⟩, ⟨?_, ?_, ?_⟩, ?_, ?_⟩
  · simp [on_ready, readyRaises]
  · simp only [on_ready, readyEvents]
    exact successEvents_safeRunFrom v callbacks 0
  · simp only [on_ready, readyEvents]
    exact failureEvents_safeRunFrom_success v callbacks 0
  · simp [on_ready, hf, readyRaises]
  · simp only [on_ready, hf, Bool.false_eq_true, if_false, readyEvents]
    exact failureEvents_safeRunFrom ei errbacks 0
  · simp only [on_ready, hf, Bool.false_eq_true, if_false, readyEvents]
    exact successEvents_safeRunFrom_failure ei errbacks 0
  · simp [on_ready, ExcKind.fatal]
  · simp [on_ready, ExcKind.fatal]

theorem pool_on_ready_exactly_one_list_fires_witness :
    (ExcInfo.mk (ExcKind.other "ValueError")).exception.fatal = false ∧
    readyRaises (on_ready [Callback.mk false, Callback.mk true] [Callback.mk false]
      (RetValue.value 5)) = none ∧
    successEvents (readyEvents (on_ready [Callback.mk false, Callback.mk true]
      [Callback.mk false] (RetValue.value 5))) =
      [CbEvent.invokedSuccess 0 5, CbEvent.invokedSuccess 1 5] ∧
    failureEvents (readyEvents (on_ready [Callback.mk false, Callback.mk true]
      [Callback.mk false] (RetValue.excinfo (ExcInfo.mk (ExcKind.other "ValueError"))))) =
      [CbEvent.invokedFailure 0 (ExcInfo.mk (ExcKind.other "ValueError"))] ∧
    on_ready [Callback.mk false, Callback.mk true] [Callback.mk false]
      (RetValue.excinfo (ExcInfo.mk ExcKind.systemExit)) =
      Except.error ExcKind.systemExit := by
  have h := pool_on_ready_exactly_one_list_fires [Callback.mk false, Callback.mk true]
    [Callback.mk false] 5 (ExcInfo.mk (ExcKind.other "ValueError")) rfl
  refine ⟨rfl, h.1.1, ?_, ?_, h.2.2.1⟩
  · have h2 := h.1.2.1
    simpa [rangeFrom] using h2
  · have h2 := h.2.1.2.1
    simpa [rangeFrom] using h2

/-- C3 counterexample: the claim says a callback that raises is caught and
logged on either delivery path; on the `on_worker_error` path a raising
errback propagates out of the result-collection call. -/
theorem pool_worker_error_callback_propagates :
    ¬ ((on_worker_error [Callback.mk true] (ExcKind.other "TypeError")).2 = none) := by
  decide

/-- C3 (amended): `on_worker_error` wraps the worker-side exception into
an exception-info object and delivers it to the registered failure
callbacks in order, but stops at the first errback that raises, whose
exception propagates; when no errback raises, every errback receives the
exception-info exactly once and nothing propagates.  Callbacks invoked on
the `on_ready` delivery path (success or failure) that raise are caught
and logged and never propagate. -/
theorem pool_callback_error_handling_amended
    (callbacks errbacks : List Callback) (exc : ExcKind) (v : Nat) (ei : ExcInfo)
    (hf : ei.exception.fatal = false) :
    on_worker_error errbacks exc =
      ((rangeFrom 0 (invokedCount errbacks)).map
         (fun i => CbEvent.invokedFailure i (ExcInfo.mk exc)),
       firstRaiserIdx errbacks) ∧
    (firstRaiserIdx errbacks = none →
      (on_worker_error errbacks exc).1 =
        (rangeFrom 0 errbacks.length).map
          (fun i => CbEvent.invokedFailure i (ExcInfo.mk exc))) ∧
    readyRaises (on_ready callbacks errbacks (RetValue.value v)) = none ∧
    readyRaises (on_ready callbacks errbacks (RetValue.excinfo ei)) = none ∧
    loggedIdxs (readyEvents (on_ready callbacks errbacks (RetValue.value v))) =
      raiserIdxsFrom 0 callbacks ∧
    loggedIdxs (readyEvents (on_ready callbacks errbacks (RetValue.excinfo ei))) =
      raiserIdxsFrom 0 errbacks := by
  have h1 := onWorkerErrorFrom_spec (ExcInfo.mk exc) errbacks 0
  have hmain : on_worker_error errbacks exc =
      ((rangeFrom 0 (invokedCount errbacks)).map
         (fun i => CbEvent.invokedFailure i (ExcInfo.mk exc)),
       firstRaiserIdx errbacks) := by
    rw [on_worker_error, h1]
    cases hfr : firstRaiserIdx errbacks <;> simp
  refine ⟨hmain, ?_, ?_, ?_, ?_, ?_⟩
  · intro hnone
    rw [hmain]
    simp [invokedCount_eq_length errbacks hnone]
  · simp [on_ready, readyRaises]
  · simp [on_ready, hf, readyRaises]
  · simp only [on_ready, readyEvents]
    exact loggedIdxs_safeRunFrom (fun i => CbEvent.invokedSuccess i v)
      (fun i => rfl) callbacks 0
  · simp only [on_ready, hf, Bool.false_eq_true, if_false, readyEvents]
    exact loggedIdxs_safeRunFrom (fun i => CbEvent.invokedFailure i ei)
      (fun i => rfl) errbacks 0

theorem pool_callback_error_handling_amended_witness :
    (ExcInfo.mk (ExcKind.other "KeyError")).exception.fatal = false ∧
    on_worker_error [Callback.mk false, Callback.mk true, Callback.mk false]
      (ExcKind.other "TypeError") =
      ([CbEvent.invokedFailure 0 (ExcInfo.mk (ExcKind.other "TypeError")),
        CbEvent.invokedFailure 1 (ExcInfo.mk (ExcKind.other "TypeError"))], some 1) ∧
    readyRaises (on_ready [Callback.mk true]
      [Callback.mk false, Callback.mk true, Callback.mk false]
      (RetValue.excinfo (ExcInfo.mk (ExcKind.other "KeyError")))) = none ∧
    loggedIdxs (readyEvents (on_ready [Callback.mk true]
      [Callback.mk false, Callback.mk true, Callback.mk false]
      (RetValue.value 3))) = [0] := by
  have h := pool_callback_error_handling_amended [Callback.mk true]
    [Callback.mk false, Callback.mk true, Callback.mk false]
    (ExcKind.other "TypeError") 3 (ExcInfo.mk (ExcKind.other "KeyError")) rfl
  refine ⟨rfl, ?_, h.2.2.2.1, ?_⟩
  · have h2 := h.1
    simpa [invokedCount, firstRaiserIdx, rangeFrom] using h2
  · have h2 := h.2.2.2.2.1
    simpa [raiserIdxsFrom] using h2

/-- C4 counterexample: at an exception none of whose ancestors serializes
and whose every pickling attempt raises a `TypeError` (not a
`pickle.PickleError`, e.g. a file object among the args), the final
`pickle.dumps(exc)` escapes the `except pickle.PickleError` clause:
`prepare_exception` propagates the `TypeError` instead of returning the
wrapper the claim requires. -/
theorem prepare_exception_non_pickle_error_raises :
    walkMro wConstruct wDumpsT wExc.args wExc.mro = none ∧
    wDumpsT wExc = DumpsOutcome.otherError "TypeError" ∧
    prepare_exception wConstruct wDumpsT wExc = Prepared.raised "TypeError" ∧
    prepare_exception wConstruct wDumpsT wExc ≠
      Prepared.wrapper "myapp.exceptions" "CustomError" ["boom"] := by
  decide

/-- C4 (amended): `prepare_exception` walks the class hierarchy from most
to least specific and returns the reconstruction at the first class whose
trial (construct from `exc.args`, then pickle) succeeds — an exception of
the nearest ancestor type surviving the serialize round trip.  When every
ancestor fails, the result is decided by re-pickling the original
instance under `except pickle.PickleError`: a `PickleError` yields a
wrapper preserving the original exception type's defining module, class
name and constructor arguments, while a pickling failure of any other
exception class propagates out of `prepare_exception` unwrapped. -/
theorem prepare_exception_nearest_pickleable
    (construct : PyClass → ExcArgs → Option PyExc) (dumps : PyExc → DumpsOutcome)
    (exc : PyExc) :
    (∀ (pre post : List PyClass) (c : PyClass) (e1 : PyExc),
        exc.mro = pre ++ c :: post →
        (∀ cp ∈ pre, trial construct dumps exc.args cp = none) →
        trial construct dumps exc.args c = some e1 →
        prepare_exception construct dumps exc = Prepared.exc e1 ∧
        dumps e1 = DumpsOutcome.ok) ∧
    ((∀ cp ∈ exc.mro, trial construct dumps exc.args cp = none) →
        dumps exc = DumpsOutcome.pickleError →
        prepare_exception construct dumps exc =
          Prepared.wrapper exc.cls.module exc.cls.name exc.args) ∧
    (∀ n, (∀ cp ∈ exc.mro, trial construct dumps exc.args cp = none) →
        dumps exc = DumpsOutcome.otherError n →
        prepare_exception construct dumps exc = Prepared.raised n) := by
  refine ⟨?_, ?_, ?_⟩
  · intro pre post c e1 hmro hpre hc
    have hwalk : walkMro construct dumps exc.args exc.mro = some e1 := by
      rw [hmro]
      exact walkMro_prefix_some construct dumps exc.args c e1 pre post hpre hc
    have hdump : dumps e1 = DumpsOutcome.ok :=
      trial_some_dumps construct dumps exc.args c e1 hc
    constructor
    · unfold prepare_exception find_nearest_pickleable_exception
      rw [hwalk]
      simp [hdump]
    · exact hdump
  · intro hall hde
    have hwalk := walkMro_none construct dumps exc.args exc.mro hall
    unfold prepare_exception find_nearest_pickleable_exception
    rw [hwalk]
    simp [hde]
  · intro n hall hde
    have hwalk := walkMro_none construct dumps exc.args exc.mro hall
    unfold prepare_exception find_nearest_pickleable_exception
    rw [hwalk]
    simp [hde]

theorem prepare_exception_nearest_pickleable_witness :
    prepare_exception wConstruct wDumps wExc =
      Prepared.exc (PyExc.mk wClsBase [wClsBase] ["boom"]) ∧
    wDumps (PyExc.mk wClsBase [wClsBase] ["boom"]) = DumpsOutcome.ok ∧
    prepare_exception wConstruct (fun _ => DumpsOutcome.pickleError) wExc =
      Prepared.wrapper "myapp.exceptions" "CustomError" ["boom"] ∧
    prepare_exception wConstruct (fun _ => DumpsOutcome.otherError "AttributeError") wExc =
      Prepared.raised "AttributeError" := by
  have h1 := (prepare_exception_nearest_pickleable wConstruct wDumps wExc).1
    [wClsCustom] [wClsObj] wClsBase (PyExc.mk wClsBase [wClsBase] ["boom"])
    (by rfl) (by decide) (by decide)
  have h2 := (prepare_exception_nearest_pickleable wConstruct
    (fun _ => DumpsOutcome.pickleError) wExc).2.1 (by decide) (by decide)
  have h3 := (prepare_exception_nearest_pickleable wConstruct
    (fun _ => DumpsOutcome.otherError "AttributeError") wExc).2.2
    "AttributeError" (by decide) (by decide)
  exact ⟨h1.1, h1.2, by simpa [wExc, wClsCustom] using h2, h3⟩

/-- C5 counterexample: `countdown=0` is supplied with no explicit `eta`,
yet `if countdown:` is false, so the envelope carries no `eta` — not the
publish-time now plus 0 seconds the claim requires. -/
theorem delay_task_zero_countdown_eta_none :
    cex5Input.countdown = some 0 ∧
    cex5Input.eta = none ∧
    (delay_task (fun _ => 1000) "gid" cex5Input).1 = Except.ok cex5Msg ∧
    cex5Msg.eta = none ∧
    ¬ (cex5Msg.eta = some (1000 + 0)) := by
  refine ⟨rfl, rfl, by decide, rfl, by decide⟩

/-- C5 (amended): for every publish call that supplies a nonzero (truthy)
countdown and no explicit eta, the envelope's eta equals the single
per-call now snapshot plus the countdown, and an integer expires supplied
in the same call is resolved against that same snapshot. -/
theorem delay_task_countdown_eta_shared_now
    (clock : Nat → Int) (genId : String) (i : DelayInput) (c : Int) (m : MessageData)
    (hc : i.countdown = some c) (hcne : c ≠ 0) (_heta : i.eta = none)
    (hm : (delay_task clock genId i).1 = Except.ok m) :
    m.eta = some (clock 0 + c) ∧ m.expires = resolveExpires (clock 0) i.expires := by
  have htr : countdownTruthy i.countdown = true := by
    simp [countdownTruthy, hc, hcne]
  by_cases ha : (pyOr i.task_args (PyObj.pylist 0)).isSeq = false
  · simp [delay_task, ha] at hm
  · by_cases hb : (pyOr i.task_kwargs (PyObj.pydict 0)).isDict = false
    · simp [delay_task, ha, hb] at hm
    · simp [delay_task, ha, hb, hc, hcne, htr, countdownTruthy] at hm
      rw [← hm]
      cases hce : i.expires with
      | none => simp [resolveExpires, hce]
      | some ea =>
          cases ea with
          | int e => simp [resolveExpires, hce]
          | dt ts => simp [resolveExpires, hce]

theorem delay_task_countdown_eta_shared_now_witness :
    wit5Msg.eta = some (wClock5 0 + 10) ∧
    wit5Msg.expires = resolveExpires (wClock5 0) wit5Input.expires :=
  delay_task_countdown_eta_shared_now wClock5 "gid5" wit5Input 10 wit5Msg
    rfl (by decide) rfl (by decide)

/-- C6 counterexample: `args` supplied as an empty dict — a mapping, not a
sequence — is falsy, so `task_args or []` silently replaces it with an
empty list: no validation error is raised and the envelope is sent. -/
theorem delay_task_empty_dict_args_accepted :
    cex6Input.task_args = some (PyObj.pydict 0) ∧
    (PyObj.pydict 0).isSeq = false ∧
    (delay_task (fun _ => 0) "gid" cex6Input).1 = Except.ok cex6Msg ∧
    (delay_task (fun _ => 0) "gid" cex6Input).2 = [cex6Msg] := by
  refine ⟨rfl, rfl, by decide, by decide⟩

/-- C6 (amended): for every publish call whose supplied `args` is truthy
and not a list or tuple, or whose supplied `kwargs` is truthy and not a
dict, `delay_task` raises a `ValueError` and nothing is sent (falsy
supplied values are replaced by empty defaults before validation). -/
theorem delay_task_invalid_args_no_send
    (clock : Nat → Int) (genId : String) (i : DelayInput)
    (h : (∃ v, i.task_args = some v ∧ v.truthy = true ∧ v.isSeq = false) ∨
         (∃ w, i.task_kwargs = some w ∧ w.truthy = true ∧ w.isDict = false)) :
    isError (delay_task clock genId i).1 = true ∧
    (delay_task clock genId i).2 = [] := by
  rcases h with ⟨v, hv, htr, hseq⟩ | ⟨w, hw, htr, hdict⟩
  · have hargs : pyOr i.task_args (PyObj.pylist 0) = v := by
      simp [pyOr, hv, htr]
    simp [delay_task, hargs, hseq, isError]
  · by_cases ha : (pyOr i.task_args (PyObj.pylist 0)).isSeq = false
    · simp [delay_task, ha, isError]
    · have hkw : pyOr i.task_kwargs (PyObj.pydict 0) = w := by
        simp [pyOr, hw, htr]
      simp [delay_task, ha, hkw, hdict, isError]

theorem delay_task_invalid_args_no_send_witness :
    isError (delay_task (fun _ => 0) "gid6" wit6Input).1 = true ∧
    (delay_task (fun _ => 0) "gid6" wit6Input).2 = [] :=
  delay_task_invalid_args_no_send (fun _ => 0) "gid6" wit6Input
    (Or.inr ⟨PyObj.pytuple 3, rfl, rfl, rfl⟩)
